import Mathlib

/-!
# Verification of the brontes decode / classify / trace-loading pipeline

Shallow embedding, in Lean 4, of the parts of the `brontes` repository that
the spec claims talk about:

* `StaticBindings::try_decode` from `src/abi-builds/bindings.rs`;
* `TraceLoader::get_metadata`, `TraceLoader::fetch_missing_metadata`,
  `TraceLoader::get_tx_traces_with_header` and `get_db_handle` from
  `src/crates/brontes-core/src/test_utils/mod.rs`;
* the address-filter closure from `src/crates/bin/src/main.rs`;
* the `Redefined_PoolsToAddresses` codec wrappers from
  `src/crates/brontes-database/libmdbx/src/types/redefined_types/pool_creation_block.rs`;
* the action-normalization classifier, which is not part of the sampled
  sources and is therefore modelled from the spec (Section 4.2).

Rust `u64` arithmetic is embedded as `Nat` with explicit wrap-around
modulo `2 ^ 64` where overflow matters.  Fallible Rust code returns
`Except` / `Option`; a `panic!` / `unwrap` that can actually fire is
modelled by an explicit `Option`-style `none` (never silently dropped).
External collaborators (the metadata store, the tracing provider, the
rkyv / zstd libraries, the `sol!`-generated decoders) appear as explicit
function parameters, so theorems quantify over their behaviour.
-/

namespace Brontes

/-! ## Basic data -/

/-- Per-block metadata, opaque for this development (the pipeline treats it
as read-only input). -/
abbrev Metadata := Nat

/-- A 256-bit transaction hash, modelled as an opaque identifier. -/
abbrev B256 := Nat

/-- A block header, opaque for this development. -/
abbrev Header := Nat

/-- One transaction trace as returned by the tracing provider; only its
position (`tx_index`) and an opaque payload are relevant here. -/
structure TxTrace where
  tx_index : Nat
  payload : Nat
deriving DecidableEq, Repr

/-- `TraceLoaderError` from `test_utils/mod.rs` (error payloads of the
transparent variants are opaque codes). -/
inductive TraceLoaderError where
  | NoMetadataFound (block : Nat)
  | BlockTraceError (block : Nat)
  | ProviderError (code : Nat)
  | EyreError (code : Nat)
deriving DecidableEq, Repr

/-! ## C1: `TraceLoader::get_metadata`

`get_metadata(block, pricing)` first consults the local libmdbx store
(`test_metadata_with_pricing` / `test_metadata`); on failure it runs
`fetch_missing_metadata` (whose own error propagates via `?`) and retries
the same lookup once, mapping a second failure to
`NoMetadataFound(block)`.  The store is embedded as the results the two
lookups would return before and after the backfill ran. -/

/-- The metadata store as `get_metadata` observes it: the result of the
libmdbx lookup (per `pricing` flag) before the backfill, the result after
the backfill has run, and the outcome of `fetch_missing_metadata` itself
(`Except.error` = the eyre error that `?` would propagate). -/
structure MetaEnv where
  firstLookup : Bool → Option Metadata
  afterLookup : Bool → Option Metadata
  backfill : Except Nat Unit

/-- `TraceLoader::get_metadata` (test_utils/mod.rs lines 77–98).  Returns
the result together with how many `fetch_missing_metadata` calls were
issued and how many store lookups were performed. -/
def get_metadata (env : MetaEnv) (block : Nat) (pricing : Bool) :
    Except TraceLoaderError Metadata × Nat × Nat :=
  match env.firstLookup pricing with
  | some res => (Except.ok res, 0, 1)
  | none =>
    match env.backfill with
    | Except.error e => (Except.error (TraceLoaderError.EyreError e), 1, 1)
    | Except.ok _ =>
      match env.afterLookup pricing with
      | some res => (Except.ok res, 1, 2)
      | none => (Except.error (TraceLoaderError.NoMetadataFound block), 1, 2)

/-! ## C10: `TraceLoader::fetch_missing_metadata`

`fetch_missing_metadata(block)` asks `initialize_tables` to initialize
`[Tables::BlockInfo, Tables::CexPrice]` over `Some((block - 2, block + 2))`
in `u64` arithmetic. -/

/-- `2 ^ 64`, the modulus of Rust's `u64`. -/
def U64_MOD : Nat := 2 ^ 64

/-- Rust `u64` wrapping subtraction (release-profile semantics; the
debug profile would panic on the same underflow). -/
def u64_sub (a b : Nat) : Nat := (a + U64_MOD - b % U64_MOD) % U64_MOD

/-- Rust `u64` wrapping addition. -/
def u64_add (a b : Nat) : Nat := (a + b) % U64_MOD

/-- The tables named by `test_utils/mod.rs`. -/
inductive Tables where
  | PoolCreationBlocks
  | TokenDecimals
  | AddressToProtocolInfo
  | BlockInfo
  | CexPrice
deriving DecidableEq, Repr

/-- The argument tuple `fetch_missing_metadata` passes to
`initialize_tables` (tables slice, `false` flag, block range). -/
structure InitTablesRequest where
  tables : List Tables
  clear : Bool
  range : Option (Nat × Nat)
deriving DecidableEq, Repr

/-- `TraceLoader::fetch_missing_metadata` (test_utils/mod.rs lines
121–136), reduced to the table-initialization request it issues. -/
def fetch_missing_metadata (block : Nat) : InitTablesRequest :=
  { tables := [Tables.BlockInfo, Tables.CexPrice]
    clear := false
    range := some (u64_sub block 2, u64_add block 2) }

/-! ## C7: the address filter built in `main.rs`

`main.rs` line 100 hands the parser
`Box::new(|address| !PROTOCOL_ADDRESS_MAPPING.contains_key(&address.0 .0))`.
`PROTOCOL_ADDRESS_MAPPING` lives in the `brontes-classifier` crate (not
among the sampled sources), so its membership test is a parameter. -/

/-- A contract address, opaque for this development. -/
abbrev Address := Nat

/-- The address-filter closure from `main.rs` line 100:
`|address| !PROTOCOL_ADDRESS_MAPPING.contains_key(&address.0 .0)`, with
`PROTOCOL_ADDRESS_MAPPING.contains_key` abstracted as `contains_key`. -/
def address_filter (contains_key : Address → Bool) : Address → Bool :=
  fun address => !(contains_key address)

/-! ## C2, C3: `StaticBindings::try_decode` (`abi-builds/bindings.rs`)

`StaticBindings` has exactly three constructors, each wrapping a
unit-like per-protocol enum.  `try_decode` dispatches on the constructor
and runs the matching `sol!`-generated decoder (`UniswapV3_Enum.try_decode`
etc., generated by `impl_decode_sol!` and not among the sampled sources —
embedded here as explicit decoder parameters), propagating a decoder
error with `?` and wrapping a success in the same-named
`StaticReturnBindings` variant.  The source ends the match with
`_ => panic!("no binding match found")`. -/

/-- `UniswapV3_Enum` from bindings.rs (a unit-like enum). -/
inductive UniswapV3_Enum where
  | None
deriving DecidableEq, Repr

/-- `UniswapV2_Enum` from bindings.rs (a unit-like enum). -/
inductive UniswapV2_Enum where
  | None
deriving DecidableEq, Repr

/-- `SushiSwapV2_Enum` from bindings.rs (a unit-like enum). -/
inductive SushiSwapV2_Enum where
  | None
deriving DecidableEq, Repr

/-- `StaticBindings` from bindings.rs lines 8–12. -/
inductive StaticBindings where
  | UniswapV3 (e : UniswapV3_Enum)
  | UniswapV2 (e : UniswapV2_Enum)
  | SushiSwapV2 (e : SushiSwapV2_Enum)
deriving DecidableEq, Repr

/-- `StaticReturnBindings` from bindings.rs lines 26–30, parametric over
the three `sol!`-generated call types (`UniswapV3::UniswapV3Calls`
etc.). -/
inductive StaticReturnBindings (α β γ : Type) where
  | UniswapV3 (c : α)
  | UniswapV2 (c : β)
  | SushiSwapV2 (c : γ)
deriving DecidableEq, Repr

/-- `alloy_sol_types::Error` as surfaced by the decoders, reduced to the
failure kinds the spec distinguishes. -/
inductive SolError where
  | TooShortForSelector
  | UnknownSelector
  | AbiDecodeFailed
deriving DecidableEq, Repr

/-- The three `sol!`-generated `try_decode` functions that
`StaticBindings::try_decode` dispatches to, as explicit parameters. -/
structure SolDecoders (α β γ : Type) where
  uniswapV3 : List Nat → Except SolError α
  uniswapV2 : List Nat → Except SolError β
  sushiSwapV2 : List Nat → Except SolError γ

/-- A computation that either panics (with a message) or produces a
value; used to make Rust `panic!` branches explicit. -/
inductive PanicOr (α : Type) where
  | panicked (msg : String)
  | value (a : α)
deriving DecidableEq, Repr

/-- `StaticBindings::try_decode` (bindings.rs lines 13–21).  The three
match arms cover every constructor of `StaticBindings`, so the trailing
`_ => panic!("no binding match found")` arm of the source is dead code:
every value of the argument type is consumed by one of the three arms
below, and none of them produces `PanicOr.panicked`. -/
def StaticBindings.try_decode {α β γ : Type} (dec : SolDecoders α β γ) :
    StaticBindings → List Nat →
      PanicOr (Except SolError (StaticReturnBindings α β γ))
  | StaticBindings.UniswapV3 _, call_data =>
    match dec.uniswapV3 call_data with
    | Except.ok c => PanicOr.value (Except.ok (StaticReturnBindings.UniswapV3 c))
    | Except.error e => PanicOr.value (Except.error e)
  | StaticBindings.UniswapV2 _, call_data =>
    match dec.uniswapV2 call_data with
    | Except.ok c => PanicOr.value (Except.ok (StaticReturnBindings.UniswapV2 c))
    | Except.error e => PanicOr.value (Except.error e)
  | StaticBindings.SushiSwapV2 _, call_data =>
    match dec.sushiSwapV2 call_data with
    | Except.ok c => PanicOr.value (Except.ok (StaticReturnBindings.SushiSwapV2 c))
    | Except.error e => PanicOr.value (Except.error e)

/-- The protocol a binding (or decoded call) is attributed to. -/
inductive ProtocolTag where
  | UniswapV3
  | UniswapV2
  | SushiSwapV2
deriving DecidableEq, Repr

/-- The variant tag of a `StaticBindings` value. -/
def StaticBindings.tag : StaticBindings → ProtocolTag
  | StaticBindings.UniswapV3 _ => ProtocolTag.UniswapV3
  | StaticBindings.UniswapV2 _ => ProtocolTag.UniswapV2
  | StaticBindings.SushiSwapV2 _ => ProtocolTag.SushiSwapV2

/-- The variant tag of a `StaticReturnBindings` value. -/
def StaticReturnBindings.tag {α β γ : Type} :
    StaticReturnBindings α β γ → ProtocolTag
  | StaticReturnBindings.UniswapV3 _ => ProtocolTag.UniswapV3
  | StaticReturnBindings.UniswapV2 _ => ProtocolTag.UniswapV2
  | StaticReturnBindings.SushiSwapV2 _ => ProtocolTag.SushiSwapV2

/-- Modelled from the spec: one `sol!`-generated per-protocol decoder
(the `impl_decode_sol!` output is not among the sampled sources).
Spec §4.1: the leading 4 bytes are the function selector, looked up in
the protocol's decode table (selector ↦ expected argument-payload
length); a malformed (too-short or truncated) payload against a matched
selector is a hard failure. -/
def specSolDecode (schema : List (List Nat × Nat)) (call_data : List Nat) :
    Except SolError (List Nat × List Nat) :=
  if call_data.length < 4 then Except.error SolError.TooShortForSelector
  else
    match schema.find? (fun entry => entry.1 == call_data.take 4) with
    | none => Except.error SolError.UnknownSelector
    | some entry =>
      if (call_data.drop 4).length == entry.2 then
        Except.ok (call_data.take 4, call_data.drop 4)
      else Except.error SolError.AbiDecodeFailed

/-- The three spec-modelled decoders, one decode table each. -/
def specSolDecoders (s3 s2 ss : List (List Nat × Nat)) :
    SolDecoders (List Nat × List Nat) (List Nat × List Nat) (List Nat × List Nat) :=
  { uniswapV3 := specSolDecode s3
    uniswapV2 := specSolDecode s2
    sushiSwapV2 := specSolDecode ss }

/-! ## C4, C5: `TraceLoader::get_tx_traces_with_header`

Lines 234–290 of test_utils/mod.rs: every transaction hash is resolved to
`(block, tx_idx)`, its block is traced and the transaction's trace
extracted; the `join_all` results are then folded into a
`HashMap<u64, BlockTracesWithHeaderAnd<()>>` — dropping every `Err` via
`if let Ok(res) = res` — after which each block's traces are sorted by
`tx_index` and the blocks by block number.  The external tracing provider
is a parameter; the `traces[tx_idx]` indexing panic is an explicit
`none`. -/

/-- The external collaborators `get_tx_traces_with_header` calls into:
`TracingProvider::block_and_tx_index` and the block tracer behind
`TraceParser::execute_block` (`none` = tracing failed). -/
structure TraceEnv where
  block_and_tx_index : B256 → Except TraceLoaderError (Nat × Nat)
  execute_block : Nat → Option (List TxTrace × Header)

/-- `TraceLoader::trace_block` (test_utils/mod.rs lines 67–75):
`execute_block(block).ok_or(BlockTraceError(block))`. -/
def trace_block (env : TraceEnv) (block : Nat) :
    Except TraceLoaderError (List TxTrace × Header) :=
  match env.execute_block block with
  | some r => Except.ok r
  | none => Except.error (TraceLoaderError.BlockTraceError block)

/-- `TxTracesWithHeaderAnd<()>` (test_utils/mod.rs lines 354–360). -/
structure TxTracesWithHeaderAnd where
  block : Nat
  tx_hash : B256
  trace : TxTrace
  header : Header
  other : Unit
deriving DecidableEq, Repr

/-- `BlockTracesWithHeaderAnd<()>` (test_utils/mod.rs lines 362–367). -/
structure BlockTracesWithHeaderAnd where
  block : Nat
  traces : List TxTrace
  header : Header
  other : Unit
deriving DecidableEq, Repr

/-- One iteration of the `join_all` closure (lines 239–255): resolve the
hash, trace its block, index the transaction's trace.  `none` models the
panic of the `traces[tx_idx]` indexing when `tx_idx` is out of range. -/
def fetch_tx_trace (env : TraceEnv) (tx_hash : B256) :
    Option (Except TraceLoaderError TxTracesWithHeaderAnd) :=
  match env.block_and_tx_index tx_hash with
  | Except.error e => some (Except.error e)
  | Except.ok (block, tx_idx) =>
    match trace_block env block with
    | Except.error e => some (Except.error e)
    | Except.ok (traces, header) =>
      match traces.get? tx_idx with
      | none => none
      | some trace =>
        some (Except.ok
          { block := block, tx_hash := tx_hash, trace := trace
            header := header, other := () })

/-- `join_all` over the per-hash futures: all results in input order, or
`none` as soon as any future panics. -/
def collect_tx_results (env : TraceEnv) :
    List B256 → Option (List (Except TraceLoaderError TxTracesWithHeaderAnd))
  | [] => some []
  | h :: hs =>
    match fetch_tx_trace env h, collect_tx_results env hs with
    | some r, some rs => some (r :: rs)
    | _, _ => none

/-- The `HashMap` entry update of the `for_each` body (lines 260–274): an
occupied entry pushes the trace, a vacant entry inserts a fresh
`BlockTracesWithHeaderAnd` built from this result.  The map is embedded
as an association list in first-insertion order (the subsequent sort by
block number erases the iteration order of `HashMap::into_values`). -/
def insert_tx_result (flattened : List BlockTracesWithHeaderAnd)
    (res : TxTracesWithHeaderAnd) : List BlockTracesWithHeaderAnd :=
  match flattened with
  | [] =>
    [{ block := res.block, traces := [res.trace], header := res.header
       other := () }]
  | e :: rest =>
    if e.block = res.block then
      { e with traces := e.traces ++ [res.trace] } :: rest
    else
      e :: insert_tx_result rest res

/-- The whole `for_each` fold (lines 256–276): `Err` results are dropped
by `if let Ok(res) = res`, `Ok` results are grouped per block. -/
def flatten_tx_results
    (results : List (Except TraceLoaderError TxTracesWithHeaderAnd)) :
    List BlockTracesWithHeaderAnd :=
  results.foldl
    (fun m r =>
      match r with
      | Except.ok res => insert_tx_result m res
      | Except.error _ => m)
    []

/-- The comparator of `traces.sort_by(|t0, t1| t0.tx_index.cmp(&t1.tx_index))`. -/
def txIndexLe (t0 t1 : TxTrace) : Prop := t0.tx_index ≤ t1.tx_index

instance : DecidableRel txIndexLe := fun t0 t1 => Nat.decLe t0.tx_index t1.tx_index

instance : IsTotal TxTrace txIndexLe := ⟨fun a b => Nat.le_total a.tx_index b.tx_index⟩

instance : IsTrans TxTrace txIndexLe := ⟨fun _ _ _ => Nat.le_trans⟩

/-- The comparator of `res.sort_by(|a, b| a.block.cmp(&b.block))`. -/
def blockLe (a b : BlockTracesWithHeaderAnd) : Prop := a.block ≤ b.block

instance : DecidableRel blockLe := fun a b => Nat.decLe a.block b.block

instance : IsTotal BlockTracesWithHeaderAnd blockLe := ⟨fun a b => Nat.le_total a.block b.block⟩

instance : IsTrans BlockTracesWithHeaderAnd blockLe := ⟨fun _ _ _ => Nat.le_trans⟩

/-- Sort one block entry's traces by transaction index (lines 280–285);
Rust's stable `sort_by` is embedded as the stable `insertionSort`. -/
def sort_block_traces (entry : BlockTracesWithHeaderAnd) : BlockTracesWithHeaderAnd :=
  { entry with traces := List.insertionSort txIndexLe entry.traces }

/-- `TraceLoader::get_tx_traces_with_header` (lines 234–290).  The outer
`Option` is `none` only when a per-hash future panicked; the `Except`
layer is the function's `Result` return type — note it is always `ok`,
whatever the individual lookups did. -/
def get_tx_traces_with_header (env : TraceEnv) (tx_hashes : List B256) :
    Option (Except TraceLoaderError (List BlockTracesWithHeaderAnd)) :=
  (collect_tx_results env tx_hashes).map (fun results =>
    Except.ok (List.insertionSort blockLe
      ((flatten_tx_results results).map sort_block_traces)))

/-- A concrete tracing environment: hash 100 cannot be resolved
(provider error), hashes 101 and 102 live in block 5 at indices 0 and 1,
hash 103 lives in block 3. -/
def exTraceEnv : TraceEnv :=
  { block_and_tx_index := fun h =>
      if h = 100 then Except.error (TraceLoaderError.ProviderError 0)
      else if h = 101 then Except.ok (5, 0)
      else if h = 102 then Except.ok (5, 1)
      else Except.ok (3, 0)
    execute_block := fun b =>
      if b = 5 then some ([⟨0, 50⟩, ⟨1, 51⟩], 500)
      else if b = 3 then some ([⟨0, 30⟩], 300)
      else none }

/-! ## C8: `get_db_handle`

`get_db_handle` returns `DB_HANDLE.get_or_init(|| ...)` on a
`static DB_HANDLE: OnceLock<LibmdbxReadWriter>`: the initializer runs only
when the cell is empty, and the stored value is returned ever after.  The
cell is embedded as explicit state (`Option Handle`), the initializer as
the handle it would construct. -/

/-- The `LibmdbxReadWriter` handle, opaque for this development. -/
abbrev DbHandle := Nat

/-- One call of `get_db_handle` (test_utils/mod.rs lines 374–383) under
`OnceLock::get_or_init` semantics: returns the handle, the new cell state,
and how many times the initializer ran during this call. -/
def get_db_handle (init : DbHandle) (cell : Option DbHandle) :
    DbHandle × Option DbHandle × Nat :=
  match cell with
  | some h => (h, some h, 0)
  | none => (init, some init, 1)

/-- A sequence of `n` successive `get_db_handle` calls starting from cell
state `cell`: the handles returned in order, the final cell state, and the
total number of initializer runs. -/
def run_db_calls (init : DbHandle) : Nat → Option DbHandle →
    List DbHandle × Option DbHandle × Nat
  | 0, cell => ([], cell, 0)
  | n + 1, cell =>
    let r := get_db_handle init cell
    let rest := run_db_calls init n r.2.1
    (r.1 :: rest.1, rest.2.1, r.2.2 + rest.2.2)

/-! ## C9: the `Redefined_PoolsToAddresses` codec wrappers

`pool_creation_block.rs` implements `Encodable`/`Decodable` by delegating
to rkyv (`rkyv::to_bytes`, `rkyv::archived_root` + `deserialize`) and
`Compress`/`Decompress` by composing those with zstd
(`zstd::encode_all` / `zstd::decode_all`).  The external libraries are
parameters; the theorems assume their round-trip contracts. -/

/-- `Redefined_PoolsToAddresses` (pool_creation_block.rs line 24): a
newtype over `Vec<Redefined_Address>`. -/
structure Redefined_PoolsToAddresses where
  addresses : List Address
deriving DecidableEq, Repr

/-- `reth_db::DatabaseError`, reduced to the variant used at line 63. -/
inductive DatabaseError where
  | Decode
deriving DecidableEq, Repr

/-- The external rkyv and zstd entry points the four impls delegate to.
`none` is a failure the source would `unwrap` (or, for `archived_root`
on an invalid buffer, undefined behaviour). -/
structure ExternalCodecs where
  rkyv_ser : Redefined_PoolsToAddresses → List Nat
  rkyv_deser : List Nat → Option Redefined_PoolsToAddresses
  zstd_enc : List Nat → List Nat
  zstd_dec : List Nat → Option (List Nat)

/-- `Encodable::encode` (lines 25–31): rkyv-serialize and put the bytes
into the (initially empty) output buffer. -/
def rpta_encode (ext : ExternalCodecs) (v : Redefined_PoolsToAddresses) :
    List Nat :=
  ext.rkyv_ser v

/-- `Decodable::decode` (lines 33–42): reinterpret the buffer as the rkyv
archive and deserialize it; `none` models the `archived_root` /
`deserialize().unwrap()` going wrong on a buffer that is not a valid
archive. -/
def rpta_decode (ext : ExternalCodecs) (buf : List Nat) :
    Option Redefined_PoolsToAddresses :=
  ext.rkyv_deser buf

/-- `Compress::compress_to_buf` (lines 44–54): `encode`, then
`zstd::encode_all`. -/
def rpta_compress (ext : ExternalCodecs) (v : Redefined_PoolsToAddresses) :
    List Nat :=
  ext.zstd_enc (rpta_encode ext v)

/-- `Decompress::decompress` (lines 56–65):
`zstd::decode_all(..).unwrap()` (the outer `none` = that unwrap
panicking), then `decode`, mapping a decode failure to
`DatabaseError::Decode`. -/
def rpta_decompress (ext : ExternalCodecs) (value : List Nat) :
    Option (Except DatabaseError Redefined_PoolsToAddresses) :=
  match ext.zstd_dec value with
  | none => none
  | some decompressed =>
    match rpta_decode ext decompressed with
    | some v => some (Except.ok v)
    | none => some (Except.error DatabaseError.Decode)

/-- Concrete library instances for the C9 witness: rkyv as a
length-prefixed list encoding, zstd as the identity compressor. -/
def exCodecs : ExternalCodecs :=
  { rkyv_ser := fun v => v.addresses.length :: v.addresses
    rkyv_deser := fun buf =>
      match buf with
      | [] => none
      | n :: rest => if rest.length = n then some ⟨rest⟩ else none
    zstd_enc := fun b => b
    zstd_dec := fun b => some b }

/-! ## C6: the action-normalization classifier (spec §4.2)

The classifier lives in the `brontes-classifier` crate, which is not
among the sampled sources; everything below is modelled from the spec. -/

/-- The recognized protocol action kinds of spec §4.2. -/
inductive ActionKind where
  | Swap
  | Mint
  | Burn
  | Collect
  | FlashLoan
deriving DecidableEq, Repr

/-- Modelled from the spec: the per-frame decode outcome the classifier
consumes (spec §3 `DecodedCall`): a recognized protocol action, a plain
value transfer, or the explicit `Unrecognized` outcome (which is also
what a contained `DecodeError` is converted into at the frame
boundary). -/
inductive DecodedCall where
  | Known (k : ActionKind)
  | Transfer
  | Unrecognized
deriving DecidableEq, Repr

mutual
/-- Modelled from the spec: one node of a transaction's execution call
tree (spec §3 `CallFrame`): `trace_index`, `success` flag, the per-frame
decoded-call outcome, and the ordered child frames. -/
inductive CallFrame where
  | mk (trace_index : Nat) (success : Bool) (decoded : DecodedCall)
      (children : FrameList)

/-- The ordered list of child frames of a `CallFrame`. -/
inductive FrameList where
  | nil
  | cons (head : CallFrame) (tail : FrameList)
end

deriving instance DecidableEq for CallFrame
deriving instance DecidableEq for FrameList

/-- The `trace_index` field of a frame. -/
def CallFrame.trace_index : CallFrame → Nat
  | CallFrame.mk i _ _ _ => i

/-- The `success` field of a frame. -/
def CallFrame.success : CallFrame → Bool
  | CallFrame.mk _ s _ _ => s

/-- The variant of a normalized action, reduced to what C6 speaks
about. -/
inductive ActionVariant where
  | Protocol (k : ActionKind)
  | Transfer
deriving DecidableEq, Repr

/-- Modelled from the spec: a `NormalizedAction`, reduced to the fields
C6 quantifies over — the originating frame's `trace_index` and the
variant. -/
structure NormalizedAction where
  trace_index : Nat
  variant : ActionVariant
deriving DecidableEq, Repr

mutual
/-- Modelled from the spec (§4.2): depth-first classification of one
frame.  A failed (`success = false`) frame and all its descendants emit
nothing.  A recognized protocol frame emits one action and absorbs the
`Transfer` emission of its immediate children (`absorb = true` for
them); a plain transfer frame emits a `Transfer` action unless absorbed;
an `Unrecognized` frame emits nothing of its own.  Children are
traversed in execution order. -/
def classifyFrame (absorb : Bool) : CallFrame → List NormalizedAction
  | CallFrame.mk i s d children =>
    if s then
      match d with
      | DecodedCall.Known k =>
        ⟨i, ActionVariant.Protocol k⟩ :: classifyChildren true children
      | DecodedCall.Transfer =>
        (if absorb then [] else [⟨i, ActionVariant.Transfer⟩]) ++
          classifyChildren false children
      | DecodedCall.Unrecognized => classifyChildren false children
    else []

/-- Classification of a list of sibling frames, in order. -/
def classifyChildren (absorb : Bool) : FrameList → List NormalizedAction
  | FrameList.nil => []
  | FrameList.cons c cs => classifyFrame absorb c ++ classifyChildren absorb cs
end

mutual
/-- All frames of a tree (the frame itself and its descendants), in
depth-first order. -/
def allFrames : CallFrame → List CallFrame
  | CallFrame.mk i s d children =>
    CallFrame.mk i s d children :: allFramesList children

/-- All frames of a forest. -/
def allFramesList : FrameList → List CallFrame
  | FrameList.nil => []
  | FrameList.cons c cs => allFrames c ++ allFramesList cs
end

mutual
/-- Trace indices of the frames reachable from the root through frames
that all have `success = true` (a superset of what the classifier can
emit for). -/
def liveIndices : CallFrame → List Nat
  | CallFrame.mk i s _ children =>
    if s then i :: liveIndicesList children else []

/-- `liveIndices` over a forest. -/
def liveIndicesList : FrameList → List Nat
  | FrameList.nil => []
  | FrameList.cons c cs => liveIndices c ++ liveIndicesList cs
end

/-- All trace indices occurring in a tree. -/
def allIndices (f : CallFrame) : List Nat :=
  (allFrames f).map CallFrame.trace_index

/-- All trace indices occurring in a forest. -/
def allIndicesList (l : FrameList) : List Nat :=
  (allFramesList l).map CallFrame.trace_index

/-- C6 witness tree, innermost frame: a successful swap at index 2. -/
def exInnerFrame : CallFrame :=
  CallFrame.mk 2 true (DecodedCall.Known ActionKind.Swap) FrameList.nil

/-- C6 witness tree, failed frame: a reverted transfer at index 1 whose
child is `exInnerFrame`. -/
def exFailedChild : CallFrame :=
  CallFrame.mk 1 false DecodedCall.Transfer
    (FrameList.cons exInnerFrame FrameList.nil)

/-- C6 witness tree, root: a successful swap at index 0 whose only child
is the failed frame. -/
def exRoot : CallFrame :=
  CallFrame.mk 0 true (DecodedCall.Known ActionKind.Swap)
    (FrameList.cons exFailedChild FrameList.nil)

end Brontes

namespace Brontes

/-! ## Theorems: C1, C7, C8, C10 -/

/-- **C1.** When the first lookup succeeds, `get_metadata` issues no
backfill request; when it fails, exactly one `fetch_missing_metadata`
request is issued, and (when that backfill itself succeeds) the lookup is
retried exactly once, a second failure yielding
`NoMetadataFound(block)`. -/
theorem get_metadata_backfill_retry (env : MetaEnv) (block : Nat) (pricing : Bool) :
    (∀ m, env.firstLookup pricing = some m →
      get_metadata env block pricing = (Except.ok m, 0, 1)) ∧
    (env.firstLookup pricing = none →
      (get_metadata env block pricing).2.1 = 1 ∧
      (get_metadata env block pricing).2.2 ≤ 2 ∧
      (env.backfill = Except.ok () →
        (get_metadata env block pricing).2.2 = 2 ∧
        (env.afterLookup pricing = none →
          (get_metadata env block pricing).1 =
            Except.error (TraceLoaderError.NoMetadataFound block)))) := by
  constructor
  · intro m hm
    simp [get_metadata, hm]
  · intro hfail
    cases hb : env.backfill with
    | error e =>
      refine ⟨by simp [get_metadata, hfail, hb], by simp [get_metadata, hfail, hb], ?_⟩
      intro hok
      exact absurd hok (by simp)
    | ok u =>
      cases u
      cases ha : env.afterLookup pricing with
      | some m => simp [get_metadata, hfail, hb, ha]
      | none => simp [get_metadata, hfail, hb, ha]

/-- Witness for C1 at a concrete store whose lookups always fail and whose
backfill succeeds. -/
theorem get_metadata_backfill_retry_witness :
    let env : MetaEnv :=
      { firstLookup := fun _ => none, afterLookup := fun _ => none
        backfill := Except.ok () }
    (get_metadata env 7 false).2.1 = 1 ∧
    (get_metadata env 7 false).1 =
      Except.error (TraceLoaderError.NoMetadataFound 7) := by
  intro env
  refine ⟨(get_metadata_backfill_retry env 7 false).2 rfl |>.1, ?_⟩
  exact (((get_metadata_backfill_retry env 7 false).2 rfl).2.2 rfl).2 rfl

/-- **C2.** `StaticBindings::try_decode` never reaches its
`panic!("no binding match found")` fallback on any constructed
`StaticBindings` value and any decoders; and against the spec-modelled
decoders a malformed (too short to hold a selector) payload yields an
`Err` value for that call alone. -/
theorem try_decode_no_panic_malformed_err {α β γ : Type}
    (dec : SolDecoders α β γ) (b : StaticBindings) (d : List Nat) :
    (∃ r, StaticBindings.try_decode dec b d = PanicOr.value r) ∧
    (∀ s3 s2 ss, d.length < 4 →
      StaticBindings.try_decode (specSolDecoders s3 s2 ss) b d =
        PanicOr.value (Except.error SolError.TooShortForSelector)) := by
  constructor
  · cases b with
    | UniswapV3 e =>
      cases h : dec.uniswapV3 d with
      | ok c =>
        exact ⟨Except.ok (StaticReturnBindings.UniswapV3 c),
          by simp [StaticBindings.try_decode, h]⟩
      | error e2 =>
        exact ⟨Except.error e2, by simp [StaticBindings.try_decode, h]⟩
    | UniswapV2 e =>
      cases h : dec.uniswapV2 d with
      | ok c =>
        exact ⟨Except.ok (StaticReturnBindings.UniswapV2 c),
          by simp [StaticBindings.try_decode, h]⟩
      | error e2 =>
        exact ⟨Except.error e2, by simp [StaticBindings.try_decode, h]⟩
    | SushiSwapV2 e =>
      cases h : dec.sushiSwapV2 d with
      | ok c =>
        exact ⟨Except.ok (StaticReturnBindings.SushiSwapV2 c),
          by simp [StaticBindings.try_decode, h]⟩
      | error e2 =>
        exact ⟨Except.error e2, by simp [StaticBindings.try_decode, h]⟩
  · intro s3 s2 ss hd
    have hspec : ∀ s, specSolDecode s d =
        Except.error SolError.TooShortForSelector := by
      intro s
      unfold specSolDecode
      rw [if_pos hd]
    cases b <;> simp [StaticBindings.try_decode, specSolDecoders, hspec]

/-- Witness for C2: a two-byte payload against a `UniswapV2` binding
decodes to an `Err`, not a panic. -/
theorem try_decode_no_panic_malformed_err_witness :
    StaticBindings.try_decode (specSolDecoders [] [] [])
        (StaticBindings.UniswapV2 UniswapV2_Enum.None) [1, 2] =
      PanicOr.value (Except.error SolError.TooShortForSelector) :=
  (try_decode_no_panic_malformed_err (specSolDecoders [] [] [])
    (StaticBindings.UniswapV2 UniswapV2_Enum.None) [1, 2]).2 [] [] [] (by decide)

/-- **C3.** Whenever `try_decode` succeeds, the variant tag of the
returned `StaticReturnBindings` equals the variant tag of the binding it
was invoked on: protocol attribution is fixed by binding identity,
whatever the (possibly shared) decoders do. -/
theorem try_decode_preserves_binding_tag {α β γ : Type}
    (dec : SolDecoders α β γ) (b : StaticBindings) (d : List Nat)
    (r : StaticReturnBindings α β γ)
    (h : StaticBindings.try_decode dec b d = PanicOr.value (Except.ok r)) :
    StaticReturnBindings.tag r = StaticBindings.tag b := by
  cases b with
  | UniswapV3 e =>
    cases hd : dec.uniswapV3 d with
    | ok c =>
      rw [show StaticBindings.try_decode dec (StaticBindings.UniswapV3 e) d =
          PanicOr.value (Except.ok (StaticReturnBindings.UniswapV3 c)) by
        simp [StaticBindings.try_decode, hd]] at h
      cases h
      rfl
    | error e2 =>
      rw [show StaticBindings.try_decode dec (StaticBindings.UniswapV3 e) d =
          PanicOr.value (Except.error e2) by
        simp [StaticBindings.try_decode, hd]] at h
      cases h
  | UniswapV2 e =>
    cases hd : dec.uniswapV2 d with
    | ok c =>
      rw [show StaticBindings.try_decode dec (StaticBindings.UniswapV2 e) d =
          PanicOr.value (Except.ok (StaticReturnBindings.UniswapV2 c)) by
        simp [StaticBindings.try_decode, hd]] at h
      cases h
      rfl
    | error e2 =>
      rw [show StaticBindings.try_decode dec (StaticBindings.UniswapV2 e) d =
          PanicOr.value (Except.error e2) by
        simp [StaticBindings.try_decode, hd]] at h
      cases h
  | SushiSwapV2 e =>
    cases hd : dec.sushiSwapV2 d with
    | ok c =>
      rw [show StaticBindings.try_decode dec (StaticBindings.SushiSwapV2 e) d =
          PanicOr.value (Except.ok (StaticReturnBindings.SushiSwapV2 c)) by
        simp [StaticBindings.try_decode, hd]] at h
      cases h
      rfl
    | error e2 =>
      rw [show StaticBindings.try_decode dec (StaticBindings.SushiSwapV2 e) d =
          PanicOr.value (Except.error e2) by
        simp [StaticBindings.try_decode, hd]] at h
      cases h

/-- Witness for C3: a `UniswapV3` binding whose decode succeeds yields a
`UniswapV3`-tagged return value. -/
theorem try_decode_preserves_binding_tag_witness :
    StaticReturnBindings.tag
        (StaticReturnBindings.UniswapV3
          (([0, 0, 0, 0], []) : List Nat × List Nat)
          (β := List Nat × List Nat) (γ := List Nat × List Nat)) =
      StaticBindings.tag (StaticBindings.UniswapV3 UniswapV3_Enum.None) :=
  try_decode_preserves_binding_tag
    (specSolDecoders [([0, 0, 0, 0], 0)] [] [])
    (StaticBindings.UniswapV3 UniswapV3_Enum.None) [0, 0, 0, 0] _ rfl

/-- Every hash of the input list contributes its fetch result to the
`join_all` output, in input order. -/
theorem collect_tx_results_mem (env : TraceEnv) :
    ∀ (hs : List B256) (rs : List (Except TraceLoaderError TxTracesWithHeaderAnd)),
      collect_tx_results env hs = some rs →
      ∀ h ∈ hs, ∃ x, fetch_tx_trace env h = some x ∧ x ∈ rs := by
  intro hs
  induction hs with
  | nil => intro rs _ h hmem; simp at hmem
  | cons a as ih =>
    intro rs hrs h hmem
    unfold collect_tx_results at hrs
    cases hf : fetch_tx_trace env a with
    | none => rw [hf] at hrs; simp at hrs
    | some r =>
      cases hc : collect_tx_results env as with
      | none => rw [hf, hc] at hrs; simp at hrs
      | some rs0 =>
        rw [hf, hc] at hrs
        simp only [Option.some.injEq] at hrs
        subst hrs
        rcases List.mem_cons.mp hmem with rfl | hmem2
        · exact ⟨r, hf, List.mem_cons_self _ _⟩
        · obtain ⟨x, hx1, hx2⟩ := ih rs0 hc h hmem2
          exact ⟨x, hx1, List.mem_cons_of_mem _ hx2⟩

/-- Inserting one result either leaves the set of block keys unchanged
(occupied entry) or appends the new block key (vacant entry). -/
theorem insert_tx_result_blocks (m : List BlockTracesWithHeaderAnd)
    (r : TxTracesWithHeaderAnd) :
    (insert_tx_result m r).map BlockTracesWithHeaderAnd.block =
      if r.block ∈ m.map BlockTracesWithHeaderAnd.block
      then m.map BlockTracesWithHeaderAnd.block
      else m.map BlockTracesWithHeaderAnd.block ++ [r.block] := by
  induction m with
  | nil => simp [insert_tx_result]
  | cons e rest ih =>
    simp only [insert_tx_result]
    by_cases he : e.block = r.block
    · rw [if_pos he]
      simp [he]
    · rw [if_neg he]
      have hne : ¬ r.block = e.block := fun hh => he hh.symm
      by_cases hm : r.block ∈ rest.map BlockTracesWithHeaderAnd.block
      · simp [ih, hm, hne]
      · simp [ih, hm, hne]

/-- Grouping preserves distinctness of the block keys. -/
theorem insert_tx_result_nodup (m : List BlockTracesWithHeaderAnd)
    (r : TxTracesWithHeaderAnd)
    (hm : (m.map BlockTracesWithHeaderAnd.block).Nodup) :
    ((insert_tx_result m r).map BlockTracesWithHeaderAnd.block).Nodup := by
  rw [insert_tx_result_blocks]
  by_cases hmem : r.block ∈ m.map BlockTracesWithHeaderAnd.block
  · rwa [if_pos hmem]
  · rw [if_neg hmem]
    simp [List.nodup_append, hm, hmem]

/-- The grouped map built by the whole fold has pairwise-distinct block
keys (it is a `HashMap` keyed by block number). -/
theorem flatten_tx_results_nodup
    (results : List (Except TraceLoaderError TxTracesWithHeaderAnd)) :
    ((flatten_tx_results results).map BlockTracesWithHeaderAnd.block).Nodup := by
  suffices haux : ∀ (rs : List (Except TraceLoaderError TxTracesWithHeaderAnd))
      (m : List BlockTracesWithHeaderAnd),
      (m.map BlockTracesWithHeaderAnd.block).Nodup →
      ((rs.foldl (fun m r =>
        match r with
        | Except.ok res => insert_tx_result m res
        | Except.error _ => m) m).map BlockTracesWithHeaderAnd.block).Nodup by
    exact haux results [] (by simp)
  intro rs
  induction rs with
  | nil => intro m hm; simpa using hm
  | cons r rest ih =>
    intro m hm
    rw [List.foldl_cons]
    cases r with
    | ok res => exact ih _ (insert_tx_result_nodup m res hm)
    | error e => exact ih _ hm

/-- The inserted result itself is represented in the grouped map. -/
theorem insert_tx_result_mem_self (m : List BlockTracesWithHeaderAnd)
    (r : TxTracesWithHeaderAnd) :
    ∃ e ∈ insert_tx_result m r, e.block = r.block ∧ r.trace ∈ e.traces := by
  induction m with
  | nil =>
    exact ⟨_, List.mem_singleton_self _, rfl, List.mem_singleton_self _⟩
  | cons e rest ih =>
    by_cases he : e.block = r.block
    · refine ⟨{ e with traces := e.traces ++ [r.trace] }, ?_, he, ?_⟩
      · simp [insert_tx_result, he]
      · simp
    · obtain ⟨e0, h0, h1, h2⟩ := ih
      exact ⟨e0, by simp [insert_tx_result, he, h0], h1, h2⟩

/-- Entries already represented in the grouped map stay represented after
another insertion. -/
theorem insert_tx_result_mem_mono (m : List BlockTracesWithHeaderAnd)
    (r : TxTracesWithHeaderAnd) (b : Nat) (tr : TxTrace)
    (hex : ∃ e ∈ m, e.block = b ∧ tr ∈ e.traces) :
    ∃ e ∈ insert_tx_result m r, e.block = b ∧ tr ∈ e.traces := by
  induction m with
  | nil => simp at hex
  | cons e rest ih =>
    obtain ⟨e0, h0, h1, h2⟩ := hex
    by_cases he : e.block = r.block
    · rcases List.mem_cons.mp h0 with rfl | hmem
      · refine ⟨{ e0 with traces := e0.traces ++ [r.trace] }, ?_, h1, ?_⟩
        · simp [insert_tx_result, he]
        · simp [h2]
      · exact ⟨e0, by simp [insert_tx_result, he, hmem], h1, h2⟩
    · rcases List.mem_cons.mp h0 with rfl | hmem
      · exact ⟨e0, by simp [insert_tx_result, he], h1, h2⟩
      · obtain ⟨e1, g0, g1, g2⟩ := ih ⟨e0, hmem, h1, h2⟩
        exact ⟨e1, by simp [insert_tx_result, he]; exact Or.inr g0, g1, g2⟩

/-- Every `Ok` result of the `join_all` stage is represented in the
grouped map (only `Err` results are dropped by the fold). -/
theorem flatten_tx_results_complete
    (results : List (Except TraceLoaderError TxTracesWithHeaderAnd))
    (res0 : TxTracesWithHeaderAnd) (hmem : Except.ok res0 ∈ results) :
    ∃ e ∈ flatten_tx_results results,
      e.block = res0.block ∧ res0.trace ∈ e.traces := by
  suffices haux : ∀ (rs : List (Except TraceLoaderError TxTracesWithHeaderAnd))
      (m : List BlockTracesWithHeaderAnd),
      (Except.ok res0 ∈ rs ∨ ∃ e ∈ m, e.block = res0.block ∧ res0.trace ∈ e.traces) →
      ∃ e ∈ rs.foldl (fun m r =>
        match r with
        | Except.ok res => insert_tx_result m res
        | Except.error _ => m) m,
        e.block = res0.block ∧ res0.trace ∈ e.traces by
    exact haux results [] (Or.inl hmem)
  intro rs
  induction rs with
  | nil =>
    intro m hm
    rcases hm with hin | hex
    · simp at hin
    · simpa using hex
  | cons r rest ih =>
    intro m hm
    rw [List.foldl_cons]
    cases r with
    | ok res1 =>
      apply ih
      rcases hm with hin | hex
      · rcases List.mem_cons.mp hin with heq | hin2
        · right
          have : res1 = res0 := by injection heq.symm
          subst this
          exact insert_tx_result_mem_self m res1
        · exact Or.inl hin2
      · exact Or.inr (insert_tx_result_mem_mono m res1 _ _ hex)
    | error e =>
      apply ih
      rcases hm with hin | hex
      · rcases List.mem_cons.mp hin with heq | hin2
        · exact absurd heq (by simp)
        · exact Or.inl hin2
      · exact Or.inr hex

/-- Sorting a block entry's traces changes neither its block number nor
the set of traces it holds. -/
theorem sort_block_traces_spec (e : BlockTracesWithHeaderAnd) :
    (sort_block_traces e).block = e.block ∧
    ∀ tr, tr ∈ (sort_block_traces e).traces ↔ tr ∈ e.traces := by
  refine ⟨rfl, fun tr => ?_⟩
  exact (List.perm_insertionSort txIndexLe e.traces).mem_iff

/-- **C5.** Whatever the tracing provider returns and in whatever order
the per-hash lookups complete, the list `get_tx_traces_with_header`
returns is sorted by strictly ascending block number, and the traces
inside each returned block are sorted by ascending `tx_index`. -/
theorem get_tx_traces_with_header_sorted (env : TraceEnv)
    (tx_hashes : List B256) (res : List BlockTracesWithHeaderAnd)
    (hres : get_tx_traces_with_header env tx_hashes = some (Except.ok res)) :
    res.Pairwise (fun a b => a.block < b.block) ∧
    ∀ e ∈ res, e.traces.Pairwise txIndexLe := by
  unfold get_tx_traces_with_header at hres
  cases hc : collect_tx_results env tx_hashes with
  | none => rw [hc] at hres; simp at hres
  | some results =>
    rw [hc] at hres
    simp only [Option.map, Option.some.injEq, Except.ok.injEq] at hres
    subst hres
    have hperm := List.perm_insertionSort blockLe
      ((flatten_tx_results results).map sort_block_traces)
    constructor
    · have hsorted : List.Sorted blockLe (List.insertionSort blockLe
          ((flatten_tx_results results).map sort_block_traces)) :=
        List.sorted_insertionSort blockLe _
      have hkeys : ((flatten_tx_results results).map sort_block_traces).map
          BlockTracesWithHeaderAnd.block =
          (flatten_tx_results results).map BlockTracesWithHeaderAnd.block := by
        rw [List.map_map]
        rfl
      have hnodup : (((flatten_tx_results results).map sort_block_traces).map
          BlockTracesWithHeaderAnd.block).Nodup := by
        rw [hkeys]; exact flatten_tx_results_nodup results
      have hnodup2 : ((List.insertionSort blockLe
          ((flatten_tx_results results).map sort_block_traces)).map
          BlockTracesWithHeaderAnd.block).Nodup :=
        ((hperm.map BlockTracesWithHeaderAnd.block).nodup_iff).mpr hnodup
      have hne : (List.insertionSort blockLe
          ((flatten_tx_results results).map sort_block_traces)).Pairwise
          (fun a b => a.block ≠ b.block) :=
        (List.pairwise_map).mp hnodup2
      exact (hsorted.and hne).imp (fun hab => lt_of_le_of_ne hab.1 hab.2)
    · intro e he
      have he2 : e ∈ (flatten_tx_results results).map sort_block_traces :=
        hperm.mem_iff.mp he
      obtain ⟨e0, _, rfl⟩ := List.mem_map.mp he2
      exact List.sorted_insertionSort txIndexLe e0.traces

/-- Witness for C5 on a concrete environment where the hashes arrive in
neither block nor index order. -/
theorem get_tx_traces_with_header_sorted_witness :
    ([{ block := 3, traces := [⟨0, 30⟩], header := 300, other := () },
      { block := 5, traces := [⟨0, 50⟩, ⟨1, 51⟩], header := 500, other := () }] :
        List BlockTracesWithHeaderAnd).Pairwise (fun a b => a.block < b.block) ∧
    ∀ e ∈ ([{ block := 3, traces := [⟨0, 30⟩], header := 300, other := () },
      { block := 5, traces := [⟨0, 50⟩, ⟨1, 51⟩], header := 500, other := () }] :
        List BlockTracesWithHeaderAnd), e.traces.Pairwise txIndexLe :=
  get_tx_traces_with_header_sorted exTraceEnv [103, 102, 101] _ rfl

/-- **C4 (as stated) fails**: hash `100`'s lookup fails with a provider
error, yet `get_tx_traces_with_header` still returns `Ok` containing only
hash `101`'s trace — the failure is neither surfaced in the result nor
recorded anywhere (the `if let Ok(res) = res` in the fold silently drops
it). -/
theorem get_tx_traces_with_header_drops_errors :
    fetch_tx_trace exTraceEnv 100 =
      some (Except.error (TraceLoaderError.ProviderError 0)) ∧
    get_tx_traces_with_header exTraceEnv [100, 101] =
      some (Except.ok
        [{ block := 5, traces := [⟨0, 50⟩], header := 500, other := () }]) :=
  ⟨rfl, rfl⟩

/-- **C4 (amended).** Every transaction hash whose per-transaction lookup
succeeds has its trace in the returned collection, grouped under its
block; a hash whose lookup fails is silently omitted — the function still
returns `Ok` and records nothing about the failure. -/
theorem get_tx_traces_with_header_keeps_ok (env : TraceEnv)
    (tx_hashes : List B256) (res : List BlockTracesWithHeaderAnd)
    (h : B256) (okRes : TxTracesWithHeaderAnd)
    (hres : get_tx_traces_with_header env tx_hashes = some (Except.ok res))
    (hmem : h ∈ tx_hashes)
    (hfetch : fetch_tx_trace env h = some (Except.ok okRes)) :
    ∃ e ∈ res, e.block = okRes.block ∧ okRes.trace ∈ e.traces := by
  unfold get_tx_traces_with_header at hres
  cases hc : collect_tx_results env tx_hashes with
  | none => rw [hc] at hres; simp at hres
  | some results =>
    rw [hc] at hres
    simp only [Option.map, Option.some.injEq, Except.ok.injEq] at hres
    subst hres
    obtain ⟨x, hx1, hx2⟩ := collect_tx_results_mem env tx_hashes results hc h hmem
    rw [hfetch] at hx1
    have hxeq : x = Except.ok okRes := by injection hx1.symm
    subst hxeq
    obtain ⟨e0, h0, h1, h2⟩ := flatten_tx_results_complete results okRes hx2
    refine ⟨sort_block_traces e0, ?_, ?_, ?_⟩
    · exact (List.perm_insertionSort blockLe _).mem_iff.mpr
        (List.mem_map.mpr ⟨e0, h0, rfl⟩)
    · exact h1
    · exact ((sort_block_traces_spec e0).2 okRes.trace).mpr h2

/-- Witness for the amended C4: hash `101` resolves successfully and its
trace indeed appears under block `5` even though hash `100` failed. -/
theorem get_tx_traces_with_header_keeps_ok_witness :
    ∃ e ∈ ([{ block := 5, traces := [⟨0, 50⟩], header := 500, other := () }] :
        List BlockTracesWithHeaderAnd),
      e.block = 5 ∧ (⟨0, 50⟩ : TxTrace) ∈ e.traces :=
  get_tx_traces_with_header_keeps_ok exTraceEnv [100, 101] _ 101
    { block := 5, tx_hash := 101, trace := ⟨0, 50⟩, header := 500, other := () }
    rfl (by simp) rfl

/-- **C7.** The address filter handed to the trace parser returns `true`
exactly on the addresses absent from the protocol-address mapping. -/
theorem address_filter_is_registry_complement
    (contains_key : Address → Bool) (a : Address) :
    address_filter contains_key a = true ↔ contains_key a = false := by
  cases h : contains_key a <;> simp [address_filter, h]

/-- **C8.** Any sequence of `get_db_handle` calls starting from the empty
`OnceLock` returns the same handle every time, and the initializer runs at
most once across the whole sequence. -/
theorem get_db_handle_once (init : DbHandle) (n : Nat) :
    (run_db_calls init n none).1 = List.replicate n init ∧
    (run_db_calls init n none).2.2 ≤ 1 := by
  have hsome : ∀ m cellv, run_db_calls init m (some cellv) =
      (List.replicate m cellv, some cellv, 0) := by
    intro m
    induction m with
    | zero => intro cellv; rfl
    | succ k ih =>
      intro cellv
      simp [run_db_calls, get_db_handle, ih, List.replicate_succ]
  cases n with
  | zero => exact ⟨rfl, by simp [run_db_calls]⟩
  | succ k =>
    constructor
    · simp [run_db_calls, get_db_handle, hsome, List.replicate_succ]
    · simp [run_db_calls, get_db_handle, hsome]

/-- **C10.** `fetch_missing_metadata` requests initialization of
`[BlockInfo, CexPrice]` exactly over the range `(block − 2, block + 2)`
whenever `block ≥ 2` (and the sum does not overflow `u64`); for
`block < 2` the `u64` subtraction underflows and wraps to the top of the
`u64` range instead. -/
theorem fetch_missing_metadata_range (block : Nat) :
    (2 ≤ block → block + 2 < U64_MOD →
      fetch_missing_metadata block =
        { tables := [Tables.BlockInfo, Tables.CexPrice]
          clear := false
          range := some (block - 2, block + 2) }) ∧
    (fetch_missing_metadata 0).range = some (U64_MOD - 2, 2) ∧
    (fetch_missing_metadata 1).range = some (U64_MOD - 1, 3) := by
  refine ⟨?_, ?_, ?_⟩
  · intro h2 hlt
    have hmod : (2 : Nat) % U64_MOD = 2 := by decide
    have hsub : u64_sub block 2 = block - 2 := by
      unfold u64_sub
      rw [hmod]
      have h1 : block + U64_MOD - 2 = (block - 2) + U64_MOD := by omega
      rw [h1, Nat.add_mod_right]
      exact Nat.mod_eq_of_lt (by omega)
    have hadd : u64_add block 2 = block + 2 := by
      unfold u64_add
      exact Nat.mod_eq_of_lt hlt
    simp [fetch_missing_metadata, hsub, hadd]
  · decide
  · decide

/-- Witness for C10 at `block = 5`. -/
theorem fetch_missing_metadata_range_witness :
    fetch_missing_metadata 5 =
      { tables := [Tables.BlockInfo, Tables.CexPrice]
        clear := false
        range := some (3, 7) } :=
  (fetch_missing_metadata_range 5).1 (by decide) (by decide)

/-! ## Lemmas and theorems for C6 -/

/-- `allIndices` on a constructed frame. -/
theorem allIndices_mk (i : Nat) (s : Bool) (d : DecodedCall) (ch : FrameList) :
    allIndices (CallFrame.mk i s d ch) = i :: allIndicesList ch := by
  simp [allIndices, allIndicesList, allFrames, CallFrame.trace_index]

/-- `allIndicesList` on a forest cons cell. -/
theorem allIndicesList_cons (c : CallFrame) (cs : FrameList) :
    allIndicesList (FrameList.cons c cs) = allIndices c ++ allIndicesList cs := by
  simp [allIndices, allIndicesList, allFramesList]

mutual

/-- Every action the classifier emits carries the trace index of a live
frame (one reachable through successful frames only). -/
theorem classify_subset_live (absorb : Bool) (f : CallFrame) :
    ∀ a ∈ classifyFrame absorb f, a.trace_index ∈ liveIndices f := by
  cases f with
  | mk i s d ch =>
    intro a ha
    cases s with
    | false => simp [classifyFrame] at ha
    | true =>
      simp only [liveIndices, if_pos rfl]
      cases d with
      | Known k =>
        simp only [classifyFrame, if_pos rfl] at ha
        rcases List.mem_cons.mp ha with rfl | h2
        · exact List.mem_cons_self _ _
        · exact List.mem_cons_of_mem _ (classify_subset_live_list true ch a h2)
      | Transfer =>
        simp only [classifyFrame, if_pos rfl] at ha
        rcases List.mem_append.mp ha with h1 | h2
        · cases absorb with
          | true => simp at h1
          | false =>
            have ha2 : a = ⟨i, ActionVariant.Transfer⟩ := by simpa using h1
            subst ha2
            exact List.mem_cons_self _ _
        · exact List.mem_cons_of_mem _ (classify_subset_live_list false ch a h2)
      | Unrecognized =>
        simp only [classifyFrame, if_pos rfl] at ha
        exact List.mem_cons_of_mem _ (classify_subset_live_list false ch a ha)

/-- `classify_subset_live` over a forest of siblings. -/
theorem classify_subset_live_list (absorb : Bool) (l : FrameList) :
    ∀ a ∈ classifyChildren absorb l, a.trace_index ∈ liveIndicesList l := by
  cases l with
  | nil => intro a ha; simp [classifyChildren] at ha
  | cons c cs =>
    intro a ha
    simp only [classifyChildren] at ha
    simp only [liveIndicesList]
    rcases List.mem_append.mp ha with h1 | h2
    · exact List.mem_append_left _ (classify_subset_live absorb c a h1)
    · exact List.mem_append_right _ (classify_subset_live_list absorb cs a h2)

end

mutual

/-- Subframe membership is transitive. -/
theorem mem_allFrames_trans (t f g : CallFrame) (hf : f ∈ allFrames t)
    (hg : g ∈ allFrames f) : g ∈ allFrames t := by
  cases t with
  | mk i s d ch =>
    simp only [allFrames] at hf ⊢
    rcases List.mem_cons.mp hf with rfl | h2
    · simp only [allFrames] at hg
      exact hg
    · exact List.mem_cons_of_mem _ (mem_allFramesList_trans ch f g h2 hg)

/-- Subframe membership through a forest is transitive. -/
theorem mem_allFramesList_trans (l : FrameList) (f g : CallFrame)
    (hf : f ∈ allFramesList l) (hg : g ∈ allFrames f) : g ∈ allFramesList l := by
  cases l with
  | nil => simp [allFramesList] at hf
  | cons c cs =>
    simp only [allFramesList] at hf ⊢
    rcases List.mem_append.mp hf with h1 | h2
    · exact List.mem_append_left _ (mem_allFrames_trans c f g h1 hg)
    · exact List.mem_append_right _ (mem_allFramesList_trans cs f g h2 hg)

end

mutual

/-- Live indices are indices of the tree. -/
theorem live_subset_all (f : CallFrame) :
    ∀ j ∈ liveIndices f, j ∈ allIndices f := by
  cases f with
  | mk i s d ch =>
    intro j hj
    rw [allIndices_mk]
    cases s with
    | false => simp [liveIndices] at hj
    | true =>
      simp only [liveIndices, if_pos rfl] at hj
      rcases List.mem_cons.mp hj with rfl | h2
      · exact List.mem_cons_self _ _
      · exact List.mem_cons_of_mem _ (live_subset_all_list ch j h2)

/-- Live indices of a forest are indices of the forest. -/
theorem live_subset_all_list (l : FrameList) :
    ∀ j ∈ liveIndicesList l, j ∈ allIndicesList l := by
  cases l with
  | nil => intro j hj; simp [liveIndicesList] at hj
  | cons c cs =>
    intro j hj
    rw [allIndicesList_cons]
    simp only [liveIndicesList] at hj
    rcases List.mem_append.mp hj with h1 | h2
    · exact List.mem_append_left _ (live_subset_all c j h1)
    · exact List.mem_append_right _ (live_subset_all_list cs j h2)

end

mutual

/-- No index inside the subtree of a failed frame is live, provided
trace indices are unique in the surrounding tree. -/
theorem failed_subtree_not_live (t f g : CallFrame)
    (hnd : (allIndices t).Nodup) (hf : f ∈ allFrames t)
    (hs : f.success = false) (hg : g ∈ allFrames f) :
    g.trace_index ∉ liveIndices t := by
  cases t with
  | mk i s d ch =>
    simp only [allFrames] at hf
    rcases List.mem_cons.mp hf with heq | h2
    · have hsf : s = false := by
        have := hs
        rw [heq] at this
        simpa [CallFrame.success] using this
      simp [liveIndices, hsf]
    · cases s with
      | false => simp [liveIndices]
      | true =>
        simp only [liveIndices, if_pos rfl]
        intro hmem
        rw [allIndices_mk] at hnd
        rcases List.mem_cons.mp hmem with heq | hmem2
        · have hgin : g ∈ allFramesList ch := mem_allFramesList_trans ch f g h2 hg
          have hidx : g.trace_index ∈ allIndicesList ch :=
            List.mem_map_of_mem CallFrame.trace_index hgin
          rw [heq] at hidx
          exact (List.nodup_cons.mp hnd).1 hidx
        · exact failed_subtree_not_live_list ch f g
            (List.nodup_cons.mp hnd).2 h2 hs hg hmem2

/-- The forest version of `failed_subtree_not_live`. -/
theorem failed_subtree_not_live_list (l : FrameList) (f g : CallFrame)
    (hnd : (allIndicesList l).Nodup) (hf : f ∈ allFramesList l)
    (hs : f.success = false) (hg : g ∈ allFrames f) :
    g.trace_index ∉ liveIndicesList l := by
  cases l with
  | nil => simp [allFramesList] at hf
  | cons c cs =>
    rw [allIndicesList_cons] at hnd
    obtain ⟨hnc, hncs, hdisj⟩ := List.nodup_append.mp hnd
    simp only [allFramesList] at hf
    simp only [liveIndicesList]
    intro hmem
    rcases List.mem_append.mp hmem with hm1 | hm2
    · rcases List.mem_append.mp hf with hf1 | hf2
      · exact failed_subtree_not_live c f g hnc hf1 hs hg hm1
      · have hgin : g ∈ allFramesList cs := mem_allFramesList_trans cs f g hf2 hg
        have hidx : g.trace_index ∈ allIndicesList cs :=
          List.mem_map_of_mem CallFrame.trace_index hgin
        exact hdisj (live_subset_all c _ hm1) hidx
    · rcases List.mem_append.mp hf with hf1 | hf2
      · have hgin : g ∈ allFrames c := mem_allFrames_trans c f g hf1 hg
        have hidx : g.trace_index ∈ allIndices c :=
          List.mem_map_of_mem CallFrame.trace_index hgin
        exact hdisj hidx (live_subset_all_list cs _ hm2)
      · exact failed_subtree_not_live_list cs f g hncs hf2 hs hg hm2

end

/-- **C6.** In any call tree with unique trace indices, if a frame `f`
has `success = false`, then no normalized action the classifier emits for
the tree originates at `f` or at any of its descendants — even when the
root (the enclosing transaction) succeeds. -/
theorem failed_frame_emits_nothing (t f g : CallFrame)
    (hnd : (allIndices t).Nodup) (hf : f ∈ allFrames t)
    (hs : f.success = false) (hg : g ∈ allFrames f) :
    ∀ a ∈ classifyFrame false t, a.trace_index ≠ g.trace_index := by
  intro a ha heq
  have h1 : a.trace_index ∈ liveIndices t := classify_subset_live false t a ha
  rw [heq] at h1
  exact failed_subtree_not_live t f g hnd hf hs hg h1

/-- Witness for C6: in the concrete tree `exRoot` (successful root, one
failed child, successful grandchild), no emitted action carries the
grandchild's trace index `2`. -/
theorem failed_frame_emits_nothing_witness :
    (⟨0, ActionVariant.Protocol ActionKind.Swap⟩ : NormalizedAction).trace_index ≠
      CallFrame.trace_index exInnerFrame :=
  failed_frame_emits_nothing exRoot exFailedChild exInnerFrame
    (by decide) (by decide) (by decide) (by decide)
    ⟨0, ActionVariant.Protocol ActionKind.Swap⟩ (by decide)

/-! ## C9 -/

/-- **C9.** Under the library round-trip contracts for rkyv
(deserializing a serialized archive recovers the value) and zstd
(decompression inverts compression), the `Redefined_PoolsToAddresses`
wrappers are mutually inverse on every value: `decode ∘ encode` recovers
`v`, and `decompress ∘ compress` yields `Ok v` (no panic, no
`DatabaseError::Decode`). -/
theorem rpta_roundtrip (ext : ExternalCodecs)
    (hrkyv : ∀ v, ext.rkyv_deser (ext.rkyv_ser v) = some v)
    (hzstd : ∀ b, ext.zstd_dec (ext.zstd_enc b) = some b)
    (v : Redefined_PoolsToAddresses) :
    rpta_decode ext (rpta_encode ext v) = some v ∧
    rpta_decompress ext (rpta_compress ext v) = some (Except.ok v) := by
  constructor
  · exact hrkyv v
  · simp [rpta_decompress, rpta_compress, rpta_decode, rpta_encode, hzstd, hrkyv]

/-- Witness for C9 with the concrete length-prefix rkyv model and the
identity zstd model, at the value `[7, 9]`. -/
theorem rpta_roundtrip_witness :
    rpta_decode exCodecs (rpta_encode exCodecs ⟨[7, 9]⟩) = some ⟨[7, 9]⟩ ∧
    rpta_decompress exCodecs (rpta_compress exCodecs ⟨[7, 9]⟩) =
      some (Except.ok ⟨[7, 9]⟩) :=
  rpta_roundtrip exCodecs
    (by intro v; cases v with | mk addrs => simp [exCodecs])
    (by intro b; rfl) ⟨[7, 9]⟩

end Brontes
